/-
Verification of the LLM-Chatbot repository against its natural-language
specification.

The development shallow-embeds the two logic-bearing parts of the code base:

* the server route (`determineResponseType`, `retryWithBackoff`, the
  `POST /api/chat` validation and history parsing), and
* the client session manager in `src/lib/hooks/use-chat.ts`
  (`createNewChat`, `removeChat`, `generateChatTitle`, `sendMessage`,
  and the assistant-response append).

JavaScript strings are modelled as Lean `String`/`List Char`; `Date.now`
values, `crypto.randomUUID` results and `URL.createObjectURL` results are
passed in as explicit parameters; `JSON.parse` is modelled as an oracle
whose outcome (failure, or a parsed JSON tree) is part of the input.
-/
import Mathlib

/-! ## Intent classifier (`determineResponseType`, route.ts)

The classifier tests an ordered list of JavaScript regular expressions
against the lower-cased prompt.  The patterns only use literals,
alternations of literals, `\b` word boundaries and `.+`, so we embed
exactly those constructs.  -/

/-- Output modality of the server response (`'image' | 'audio' | 'text'`). -/
inductive RType where
  | image
  | audio
  | text
deriving DecidableEq, Repr

/-- One element of a regular expression as used by the classifier patterns:
a literal string, an alternation of literal strings, a `\b` word boundary,
or `.+` (one or more arbitrary non-line-terminator characters). -/
inductive RElem where
  | lit (s : String)
  | alt (ws : List String)
  | wb
  | dotPlus
deriving DecidableEq, Repr

/-- A pattern is a sequence of elements (the patterns carry no anchors). -/
abbrev RPattern := List RElem

/-- JavaScript word character for `\b`: `[A-Za-z0-9_]`. -/
def isWordChar (c : Char) : Bool :=
  c.isAlpha || c.isDigit || c = '_'

/-- Word-character test on an optional character (text edge counts as
non-word). -/
def isWordO : Option Char → Bool
  | none => false
  | some c => isWordChar c

/-- `\b` holds between `prev` (the character before the current position)
and the next character of `cs`. -/
def atBoundary (prev : Option Char) (cs : List Char) : Bool :=
  isWordO prev != isWordO cs.head?

/-- JavaScript `.` (without the `s` flag) matches anything but a line
terminator. -/
def isDotChar (c : Char) : Bool :=
  c ≠ '\n' && c ≠ '\r' && c ≠ '\u2028' && c ≠ '\u2029'

/-- Strip a literal prefix from a character list, returning the remainder. -/
def stripPrefixL : List Char → List Char → Option (List Char)
  | [], cs => some cs
  | _ :: _, [] => none
  | a :: as, c :: cs => if c = a then stripPrefixL as cs else none

/-- The character preceding the position after a literal `s` was consumed. -/
def lastCharOf (s : String) (prev : Option Char) : Option Char :=
  match s.data.getLast? with
  | some c => some c
  | none => prev

/-- Size of a pattern element, used to bound the matcher's recursion. -/
def esize : RElem → Nat
  | RElem.lit _ => 1
  | RElem.wb => 1
  | RElem.dotPlus => 1
  | RElem.alt ws => 2 + ws.length

/-- Total size of a pattern. -/
def patW (p : RPattern) : Nat := (p.map esize).sum

/-- Does the pattern match a prefix of `cs` (with `prev` the character just
before `cs`)?  Fuel-based: every recursive call either shortens `cs` or
shrinks the pattern weight, and the weight never grows along a path, so
`(cs.length + 1) * (patW p + 2)` fuel (as supplied by `testPat`) is enough
for the answer to agree with the unbounded matcher. -/
def matchSeq : Nat → RPattern → Option Char → List Char → Bool
  | 0, _, _, _ => false
  | _ + 1, [], _, _ => true
  | fuel + 1, RElem.wb :: rest, prev, cs =>
      atBoundary prev cs && matchSeq fuel rest prev cs
  | fuel + 1, RElem.lit s :: rest, prev, cs =>
      match stripPrefixL s.data cs with
      | some cs2 => matchSeq fuel rest (lastCharOf s prev) cs2
      | none => false
  | _ + 1, RElem.alt [] :: _, _, _ => false
  | fuel + 1, RElem.alt (w :: ws) :: rest, prev, cs =>
      matchSeq fuel (RElem.lit w :: rest) prev cs ||
        matchSeq fuel (RElem.alt ws :: rest) prev cs
  | fuel + 1, RElem.dotPlus :: rest, _, cs =>
      match cs with
      | [] => false
      | c :: cs2 =>
          isDotChar c &&
            (matchSeq fuel rest (some c) cs2 ||
              matchSeq fuel (RElem.dotPlus :: rest) (some c) cs2)

/-- Unanchored search: try to match at every position, tracking the
preceding character for word boundaries. -/
def searchFrom (p : RPattern) (prev : Option Char) (cs : List Char) : Bool :=
  matchSeq ((cs.length + 1) * (patW p + 2)) p prev cs ||
    (match cs with
     | [] => false
     | c :: cs2 => searchFrom p (some c) cs2)

/-- JavaScript `pattern.test(s)`. -/
def testPat (p : RPattern) (s : String) : Bool :=
  searchFrom p none s.data

/-- `toLowerCase` on the characters of a string (ASCII case mapping; the
classifier patterns are pure ASCII).  Same mapping as `String.toLower`,
stated over the character list so that it evaluates by kernel reduction. -/
def jsToLower (s : String) : String :=
  String.mk (s.data.map Char.toLower)

/-- The three image-intent patterns of `determineResponseType`, in source
order. -/
def imagePatterns : List RPattern :=
  [ [RElem.wb, RElem.alt ["draw", "create", "generate", "make"], RElem.wb,
     RElem.dotPlus, RElem.wb,
     RElem.alt ["picture", "image", "photo", "artwork", "visual", "drawing",
                "illustration"], RElem.wb],
    [RElem.wb, RElem.alt ["show", "display", "visualize"], RElem.wb,
     RElem.dotPlus, RElem.wb, RElem.alt ["as", "in", "with"], RElem.wb,
     RElem.dotPlus, RElem.wb,
     RElem.alt ["image", "picture", "photo", "drawing"], RElem.wb],
    [RElem.wb, RElem.alt ["picture", "image", "photo", "drawing", "artwork"],
     RElem.wb, RElem.dotPlus, RElem.wb,
     RElem.alt ["of", "showing", "depicting"], RElem.wb] ]

/-- The five audio-intent patterns of `determineResponseType`, in source
order. -/
def audioPatterns : List RPattern :=
  [ [RElem.wb, RElem.alt ["speak", "say", "pronounce", "read", "narrate"],
     RElem.wb, RElem.dotPlus],
    [RElem.wb, RElem.alt ["convert", "transform"], RElem.wb, RElem.dotPlus,
     RElem.wb, RElem.alt ["to", "into"], RElem.wb, RElem.dotPlus, RElem.wb,
     RElem.alt ["speech", "audio", "voice"], RElem.wb],
    [RElem.wb, RElem.alt ["generate", "create", "make"], RElem.wb,
     RElem.dotPlus, RElem.wb,
     RElem.alt ["audio", "speech", "voice", "sound"], RElem.wb],
    [RElem.lit "how does", RElem.dotPlus, RElem.lit "sound", RElem.wb],
    [RElem.wb, RElem.alt ["tell", "read"], RElem.dotPlus, RElem.wb,
     RElem.alt ["me", "us", "out loud"], RElem.wb] ]

/-- `determineResponseType` from the route: lower-case the prompt, test the
audio patterns first, then the image patterns, defaulting to text. -/
def determineResponseType (prompt : String) : RType :=
  let normalizedPrompt := jsToLower prompt
  if audioPatterns.any (fun p => testPat p normalizedPrompt) then RType.audio
  else if imagePatterns.any (fun p => testPat p normalizedPrompt) then
    RType.image
  else RType.text

/-! ## Retry wrapper (`retryWithBackoff`, route.ts)

Errors thrown by the wrapped operation are either provider API errors
(`OpenAI.APIError`, carrying an optional HTTP status and an optional error
code) or plain `Error` values carrying a message.  The wrapped asynchronous
operation is modelled as an oracle giving the outcome of its `i`-th
invocation; alongside the result we collect the list of backoff delays that
were awaited, in order. -/

/-- A JavaScript exception as distinguished by the route code. -/
inductive JsError where
  | api (status : Option Nat) (code : Option String)
  | err (msg : String)
deriving DecidableEq, Repr

/-- `error instanceof OpenAI.APIError && error.status === n`. -/
def isApiStatus : JsError → Nat → Bool
  | JsError.api (some s) _, n => s == n
  | _, _ => false

/-- `error instanceof OpenAI.APIError && error.code === c`. -/
def isApiCode : JsError → String → Bool
  | JsError.api _ (some c), s => c == s
  | _, _ => false

/-- `ERROR_MESSAGES.MISSING_API_KEY`. -/
def ERROR_MISSING_API_KEY : String :=
  "Missing OpenAI API key in server configuration."

/-- `ERROR_MESSAGES.INVALID_REQUEST`. -/
def ERROR_INVALID_REQUEST : String :=
  "Invalid request format or empty message."

/-- `ERROR_MESSAGES.INVALID_API_KEY`. -/
def ERROR_INVALID_API_KEY : String :=
  "Invalid API key. Please check your OpenAI API key configuration."

/-- `ERROR_MESSAGES.RATE_LIMIT`. -/
def ERROR_RATE_LIMIT : String :=
  "Rate limit exceeded. Please try again in a moment."

/-- `ERROR_MESSAGES.CONTENT_POLICY`. -/
def ERROR_CONTENT_POLICY : String :=
  "Your request could not be processed due to content policy restrictions."

/-- `RETRY_OPTIONS.maxRetries`. -/
def RETRY_maxRetries : Nat := 3

/-- `RETRY_OPTIONS.initialDelay` (milliseconds). -/
def RETRY_initialDelay : Nat := 1000

/-- `RETRY_OPTIONS.maxDelay` (milliseconds). -/
def RETRY_maxDelay : Nat := 5000

/-- An error is retryable when it triggers none of the three short-circuit
checks of `retryWithBackoff`. -/
def retryable (e : JsError) : Bool :=
  !(isApiStatus e 401 || isApiStatus e 429 ||
      isApiCode e "content_policy_violation")

/-- Body of `retryWithBackoff`: try `op` at the current attempt index; on
failure rethrow once the retry budget is exhausted, otherwise map the three
non-retryable provider errors, otherwise wait for the backoff delay and
recurse with `retryCount + 1`.  In the source the recursion is bounded by
the `retryCount >= maxRetries` guard alone; the extra `fuel` argument makes
that bound structural (starting `retryWithBackoff` with
`fuel = RETRY_maxRetries` keeps `retryCount + fuel = RETRY_maxRetries`
invariant, so the `fuel = 0` fallback — which mirrors the guard by
rethrowing — is never reached before the guard fires). -/
def retryAux {α : Type} (op : Nat → Except JsError α) :
    Nat → Nat → Except JsError α × List Nat
  | retryCount, fuel =>
    match op retryCount with
    | Except.ok a => (Except.ok a, [])
    | Except.error e =>
      if RETRY_maxRetries ≤ retryCount then (Except.error e, [])
      else if isApiStatus e 401 then
        (Except.error (JsError.err ERROR_INVALID_API_KEY), [])
      else if isApiStatus e 429 then
        (Except.error (JsError.err ERROR_RATE_LIMIT), [])
      else if isApiCode e "content_policy_violation" then
        (Except.error (JsError.err ERROR_CONTENT_POLICY), [])
      else
        match fuel with
        | 0 => (Except.error e, [])
        | fuel + 1 =>
          let delay := min (RETRY_initialDelay * 2 ^ retryCount) RETRY_maxDelay
          let r := retryAux op (retryCount + 1) fuel
          (r.1, delay :: r.2)

/-- `retryWithBackoff(operation)` with the default `retryCount = 0`,
returning the final outcome together with the awaited delays. -/
def retryWithBackoff {α : Type} (op : Nat → Except JsError α) :
    Except JsError α × List Nat :=
  retryAux op 0 RETRY_maxRetries

/-! ## `POST /api/chat` validation and history parsing (route.ts)

The handler checks the API key, reads `message` and `history` from the
multipart form, validates the message, parses the history (swallowing
parse failures), classifies the trimmed message and dispatches to a
generation branch.  We model the handler up to and including that
dispatch decision; the claims about the endpoint concern only which
requests are rejected and with what, and which generation inputs are
used otherwise. -/

/-- Message roles (the server `Message` interface). -/
inductive Role where
  | user
  | assistant
  | system
deriving DecidableEq, Repr

/-- A server-side `{role, content}` message. -/
structure SMsg where
  role : Role
  content : String
deriving DecidableEq, Repr

/-- A JSON value as produced by `JSON.parse` (numbers restricted to the
integers, which covers every value the handler inspects). -/
inductive Json where
  | null
  | bool (b : Bool)
  | num (n : Int)
  | str (s : String)
  | arr (elems : List Json)
  | obj (fields : List (String × Json))

/-- JavaScript truthiness of a parsed JSON value. -/
def jsTruthy : Json → Bool
  | Json.null => false
  | Json.bool b => b
  | Json.num n => n != 0
  | Json.str s => s != ""
  | Json.arr _ => true
  | Json.obj _ => true

/-- The filter `msg && typeof msg === 'object'`: of the values `JSON.parse`
can produce, objects and arrays pass, `null` and primitives do not. -/
def jsFilterKeep : Json → Bool
  | Json.obj _ => true
  | Json.arr _ => true
  | _ => false

/-- Property lookup on a parsed JSON value; for objects with duplicate keys
`JSON.parse` keeps the last occurrence. -/
def lookupLast : List (String × Json) → String → Option Json
  | [], _ => none
  | (k2, v) :: rest, k =>
    match lookupLast rest k with
    | some v2 => some v2
    | none => if k2 == k then some v else none

/-- `msg.prop` on a parsed JSON value (`undefined` is `none`). -/
def jsGet : Json → String → Option Json
  | Json.obj fields, k => lookupLast fields k
  | _, _ => none

mutual

/-- JavaScript `String(v)` for a parsed JSON value. -/
def jsString : Json → String
  | Json.null => "null"
  | Json.bool true => "true"
  | Json.bool false => "false"
  | Json.num n => toString n
  | Json.str s => s
  | Json.arr xs => jsArrJoin xs
  | Json.obj _ => "[object Object]"

/-- JavaScript array-to-string: elements joined by commas, with `null`
elements rendered as the empty string. -/
def jsArrJoin : List Json → String
  | [] => ""
  | [Json.null] => ""
  | [x] => jsString x
  | Json.null :: x :: xs => "," ++ jsArrJoin (x :: xs)
  | x :: y :: xs => jsString x ++ "," ++ jsArrJoin (y :: xs)

end

/-- `String(msg.content || '')`: the empty string for a falsy (or absent)
content, the string conversion otherwise. -/
def jsContentString (c : Option Json) : String :=
  match c with
  | none => ""
  | some v => if jsTruthy v then jsString v else ""

/-- The per-entry mapping of the history parser: recognized roles are kept,
anything else is coerced to `user`; content is stringified. -/
def coerceMsg (j : Json) : SMsg :=
  { role :=
      match jsGet j "role" with
      | some (Json.str "user") => Role.user
      | some (Json.str "assistant") => Role.assistant
      | _ => Role.user
  , content := jsContentString (jsGet j "content") }

/-- The `history` form field: either a `File` (skipped, `typeof` is not
`string`) or a string together with the outcome of `JSON.parse` on it
(`JSON.parse` throws on the empty string, so falsy strings are subsumed by
the failure case). -/
inductive HistVal where
  | blob
  | strVal (parsed : Except Unit Json)

/-- History extraction of the handler: absent, non-string or unparseable
payloads and non-array JSON all leave the history empty; an array is
filtered to its object-like entries, which are coerced entrywise. -/
def parseHistoryField : Option HistVal → List SMsg
  | none => []
  | some HistVal.blob => []
  | some (HistVal.strVal (Except.error _)) => []
  | some (HistVal.strVal (Except.ok j)) =>
    match j with
    | Json.arr items => (items.filter jsFilterKeep).map coerceMsg
    | _ => []

/-- A `formData.get('message')` result: absent, a string, or a `File`. -/
inductive FormVal where
  | str (s : String)
  | blob
deriving DecidableEq, Repr

/-- The parts of an incoming `POST /api/chat` request (plus server
environment) that the validation and dispatch decision reads. -/
structure PostRequest where
  hasApiKey : Bool
  message : Option FormVal
  history : Option HistVal

/-- JavaScript whitespace trimmed by `String.prototype.trim` (the common
code points; exotic Unicode spaces behave alike for the claims). -/
def isJsWhite (c : Char) : Bool :=
  c = ' ' || c = '\t' || c = '\n' || c = '\r' || c = '\x0b' || c = '\x0c' ||
    c = ' ' || c = '﻿'

/-- `message.trim()`, over the character list so that it evaluates by
kernel reduction. -/
def jsTrim (s : String) : String :=
  String.mk
    (((s.data.dropWhile isJsWhite).reverse.dropWhile isJsWhite).reverse)

/-- The dispatch decision of the handler: either an error response
(`NextResponse.json({error}, {status})` — no generation call is made), or
the entry into the generation `switch` with the classified type, the
trimmed message and the model-facing history (prior turns plus the pushed
current user turn). -/
inductive PostOutcome where
  | reject (status : Nat) (error : String)
  | dispatch (rtype : RType) (messageText : String) (history : List SMsg)
deriving DecidableEq, Repr

/-- The `POST` handler of the route up to the dispatch decision, in source
order: missing API key, then message validation, then history parsing,
classification and the push of the current user turn. -/
def postDispatch (req : PostRequest) : PostOutcome :=
  if req.hasApiKey = false then PostOutcome.reject 500 ERROR_MISSING_API_KEY
  else
    match req.message with
    | none => PostOutcome.reject 400 ERROR_INVALID_REQUEST
    | some FormVal.blob => PostOutcome.reject 400 ERROR_INVALID_REQUEST
    | some (FormVal.str m) =>
      if jsTrim m = "" then PostOutcome.reject 400 ERROR_INVALID_REQUEST
      else
        let history := parseHistoryField req.history
        let messageText := jsTrim m
        let responseType := determineResponseType messageText
        PostOutcome.dispatch responseType messageText
          (history ++ [{ role := Role.user, content := messageText }])

/-! ## Client session manager (`use-chat.ts`)

State is the chat array plus the current selection.  `Date` values,
`crypto.randomUUID` results and `URL.createObjectURL` results are passed
in as explicit arguments (`now`, `newChatId` / `msgId`, `objUrl`).
`sendMessage` closes over the `chats` array of the render that created it;
updates made through `setChats` inside the same call are therefore not
visible to its later reads, which the model reproduces by distinguishing
the captured snapshot from the evolving store. -/

/-- Media modality of a client message attachment. -/
inductive MediaType where
  | image
  | audio
deriving DecidableEq, Repr

/-- The optional `media` part of a client message. -/
structure Media where
  type : MediaType
  url : String
deriving DecidableEq, Repr

/-- A client `Message` (the client never constructs `Role.system`). -/
structure CMsg where
  id : Nat
  role : Role
  content : String
  media : Option Media := none
deriving DecidableEq, Repr

/-- A client `Chat`. -/
structure Chat where
  id : Nat
  title : String
  messages : List CMsg
  createdAt : Nat
  updatedAt : Nat
deriving DecidableEq, Repr

/-- The hook state: chat list plus current selection. -/
structure ChatState where
  chats : List Chat
  currentChatId : Option Nat
deriving DecidableEq, Repr

/-- A `File`/`Blob` attachment as far as `sendMessage` inspects it. -/
structure FileM where
  size : Nat
  isImage : Bool
deriving DecidableEq, Repr

/-- The comparator `(a, b) => b.updatedAt - a.updatedAt`: most recently
updated first. -/
def byUpdatedDesc (a b : Chat) : Prop := b.updatedAt ≤ a.updatedAt

instance : DecidableRel byUpdatedDesc := fun a b =>
  inferInstanceAs (Decidable (b.updatedAt ≤ a.updatedAt))

instance : IsTotal Chat byUpdatedDesc :=
  ⟨fun a b => (Nat.le_total b.updatedAt a.updatedAt).elim Or.inl Or.inr⟩

instance : IsTrans Chat byUpdatedDesc :=
  ⟨fun _ _ _ hab hbc => Nat.le_trans hbc hab⟩

/-- `chats.sort((a, b) => b.updatedAt - a.updatedAt)`, modelled by a stable
sort with respect to the comparator (JavaScript `Array.prototype.sort` is
stable). -/
def sortByUpdatedDesc (l : List Chat) : List Chat :=
  List.insertionSort byUpdatedDesc l

/-- `createNewChat` builds this fresh chat. -/
def mkNewChat (now id : Nat) : Chat :=
  { id := id, title := "New Chat", messages := [], createdAt := now,
    updatedAt := now }

/-- `createNewChat`: prepend a fresh chat and select it. -/
def createNewChat (st : ChatState) (now id : Nat) : ChatState :=
  { chats := mkNewChat now id :: st.chats, currentChatId := some id }

/-- `removeChat`: drop the chat and clear the selection only when the
removed chat was selected. -/
def removeChat (st : ChatState) (chatId : Nat) : ChatState :=
  { chats := st.chats.filter (fun c => c.id != chatId),
    currentChatId :=
      if st.currentChatId = some chatId then none else st.currentChatId }

/-- The leading question words of the title regex
`^(what|who|how|why|when|where|can|could|would|will|should|is|are|do|does|did).+?\?`,
in source order. -/
def questionWords : List String :=
  ["what", "who", "how", "why", "when", "where", "can", "could", "would",
   "will", "should", "is", "are", "do", "does", "did"]

/-- Case-insensitive literal prefix test (the words are lower case). -/
def ciPrefix : List Char → List Char → Bool
  | [], _ => true
  | _ :: _, [] => false
  | a :: as, c :: cs => (c.toLower == a) && ciPrefix as cs

/-- Scan for the `'?'` ending the lazy `.+?\?`: index of the first `'?'`,
provided every character before it can be consumed by `.` (a non-dot
character — a line terminator — aborts the scan, as JavaScript `.` never
matches across it). -/
def qMarkScan : List Char → Option Nat
  | [] => none
  | c :: cs =>
    if c = '?' then some 0
    else if isDotChar c then (qMarkScan cs).map (· + 1)
    else none

/-- The `.+?\?` tail of the title regex against a suffix: the first
character is consumed by `.` (so it must be a dot character and the final
`'?'` lies strictly later), then `qMarkScan` finds the earliest reachable
`'?'` — the lazy quantifier's minimal match. -/
def dotThenQMark : List Char → Option Nat
  | [] => none
  | c :: cs =>
    if isDotChar c then (qMarkScan cs).map (· + 1) else none

/-- Absolute index of the `'?'` ending `.+?\?` when the dot starts
consuming at position `n` of `cs`. -/
def lazyQMarkAfter (cs : List Char) (n : Nat) : Option Nat :=
  (dotThenQMark (cs.drop n)).map (· + n)

/-- Ordered alternation with backtracking: the first question word that is
a case-insensitive prefix and is followed by `.+?\?` (at least one
dot-consumable character, then a `'?'`, with no line terminator in
between) wins; the match is the prefix up to and including that `'?'`. -/
def tryQuestionWords : List String → List Char → Option (List Char)
  | [], _ => none
  | w :: ws, cs =>
    if ciPrefix w.data cs then
      match lazyQMarkAfter cs w.length with
      | some i => some (cs.take (i + 1))
      | none => tryQuestionWords ws cs
    else tryQuestionWords ws cs

/-- `message.match(/^(what|...|did).+?\?/i)`, returning `match[0]`. -/
def matchQuestion (message : String) : Option String :=
  (tryQuestionWords questionWords message.data).map String.mk

/-- `message.split(' ')` (single-space separator, keeping empty pieces),
over the character list. -/
def jsSplitSpaceAux : List Char → List Char → List String
  | [], acc => [String.mk acc.reverse]
  | ' ' :: rest, acc => String.mk acc.reverse :: jsSplitSpaceAux rest []
  | c :: rest, acc => jsSplitSpaceAux rest (c :: acc)

/-- `message.split(' ')`. -/
def jsSplitSpace (s : String) : List String :=
  jsSplitSpaceAux s.data []

/-- `words.join(' ')`. -/
def joinSpace : List String → String
  | [] => ""
  | [w] => w
  | w :: ws => w ++ " " ++ joinSpace ws

/-- `generateChatTitle`: short messages verbatim; otherwise the question
match truncated to 30 characters plus an ellipsis; otherwise the first
four space-separated words plus an ellipsis. -/
def generateChatTitle (message : String) : String :=
  if message.length < 30 then message
  else
    match matchQuestion message with
    | some q => String.mk (q.data.take 30) ++ "..."
    | none => joinSpace ((jsSplitSpace message).take 4) ++ "..."

/-- The optimistic user `Message` built by `sendMessage` (media attached
when a file is present, tagged by its MIME type). -/
def mkUserMessage (msgId : Nat) (message : String) (file : Option FileM)
    (objUrl : String) : CMsg :=
  { id := msgId, role := Role.user, content := message,
    media :=
      match file with
      | none => none
      | some f =>
          some { type := if f.isImage then MediaType.image else MediaType.audio,
                 url := objUrl } }

/-- `file.size > 10 * 1024 * 1024`. -/
def fileTooLarge : Option FileM → Bool
  | none => false
  | some f => 10 * 1024 * 1024 < f.size

/-- The optimistic `setChats` updater of `sendMessage`: append the user
message to every chat with the target id, retitling it if it had no
messages, stamping the update time, then re-sort. -/
def appendUserMessage (chats : List Chat) (chatId : Nat) (newMessage : CMsg)
    (message : String) (now : Nat) : List Chat :=
  sortByUpdatedDesc (chats.map (fun chat =>
    if chat.id == chatId then
      { chat with
        messages := chat.messages ++ [newMessage],
        title :=
          if chat.messages.length == 0 then generateChatTitle message
          else chat.title,
        updatedAt := now }
    else chat))

/-- Result of the synchronous part of `sendMessage`, up to the point where
the network request would be issued.  The carried state is the store after
the call's `setChats` updates (which may include a chat freshly created by
`createNewChat` even on the aborting paths). -/
inductive SendOutcome where
  | rejectedEmpty (st : ChatState)
  | abortedStaleChat (st : ChatState)
  | rejectedFileTooLarge (st : ChatState)
  | sent (st : ChatState) (chatId : Nat) (historySent : List SMsg)
      (messageSent : String)
deriving DecidableEq, Repr

/-- `sendMessage` up to the `fetch`, in source order: empty-input check;
target resolution (`currentChatId || createNewChat()`); lookup of the
target in the **captured** `chats` snapshot (`st.chats`, not the store
updated by `createNewChat` — the stale-closure behaviour of the hook);
history serialization from the captured chat; attachment size ceiling;
optimistic append. -/
def sendMessage (st : ChatState) (message : String) (file : Option FileM)
    (now newChatId msgId : Nat) (objUrl : String) : SendOutcome :=
  if jsTrim message == "" && file.isNone then SendOutcome.rejectedEmpty st
  else
    let resolved : ChatState × Nat :=
      match st.currentChatId with
      | some id => (st, id)
      | none => (createNewChat st now newChatId, newChatId)
    let store := resolved.1
    let chatId := resolved.2
    match st.chats.find? (fun c => c.id == chatId) with
    | none => SendOutcome.abortedStaleChat store
    | some chat =>
      let history :=
        chat.messages.map (fun m => ({ role := m.role, content := m.content } : SMsg))
      if fileTooLarge file then SendOutcome.rejectedFileTooLarge store
      else
        let newMessage := mkUserMessage msgId message file objUrl
        let store2 : ChatState :=
          { store with
            chats := appendUserMessage store.chats chatId newMessage message now }
        SendOutcome.sent store2 chatId history message

/-- The normalized response body `{type, content, url}` the client reads
on success. -/
structure ApiData where
  type : RType
  content : String
  url : String
deriving DecidableEq, Repr

/-- The assistant `Message` built from a successful response (media for
image/audio responses). -/
def mkAssistantMessage (msgId : Nat) (data : ApiData) : CMsg :=
  { id := msgId, role := Role.assistant, content := data.content,
    media :=
      match data.type with
      | RType.image => some { type := MediaType.image, url := data.url }
      | RType.audio => some { type := MediaType.audio, url := data.url }
      | RType.text => none }

/-- The success-path `setChats` updater of `sendMessage`: append the
assistant message to every chat with the target id, stamp the update time,
re-sort. -/
def applyAssistantResponse (st : ChatState) (chatId : Nat) (data : ApiData)
    (now msgId : Nat) : ChatState :=
  { st with
    chats := sortByUpdatedDesc (st.chats.map (fun chat =>
      if chat.id == chatId then
        { chat with
          messages := chat.messages ++ [mkAssistantMessage msgId data],
          updatedAt := now }
      else chat)) }

/-- The chat-list invariant of the spec: sorted by last update,
most recent first. -/
def chatsSortedDesc (l : List Chat) : Prop :=
  l.Pairwise byUpdatedDesc

/-! ## Inputs used by the witness theorems -/

/-- Witness operation for the retry wrapper: fails twice with a plain
error, then succeeds. -/
def retryOpW : Nat → Except JsError Nat :=
  fun i => if i < 2 then Except.error (JsError.err "boom") else Except.ok 42

/-- Witness operation failing with retryable errors on attempts 0–2 and a
401 provider error on the final attempt. -/
def retryOpW401 : Nat → Except JsError Nat :=
  fun i =>
    if i < 3 then Except.error (JsError.err "boom")
    else Except.error (JsError.api (some 401) none)

/-- Witness operation failing with a 429 provider error immediately. -/
def retryOpW429 : Nat → Except JsError Nat :=
  fun _ => Except.error (JsError.api (some 429) none)

/-- Witness request with a valid message and unparseable history. -/
def reqHistBad : PostRequest :=
  { hasApiKey := true, message := some (FormVal.str "hello"),
    history := some (HistVal.strVal (Except.error ())) }

/-- Witness request with a whitespace-only message. -/
def reqBlankMsg : PostRequest :=
  { hasApiKey := true, message := some (FormVal.str "   "), history := none }

/-- Witness client state: one freshly created, still empty chat, selected. -/
def stOneEmpty : ChatState :=
  { chats := [{ id := 1, title := "New Chat", messages := [], createdAt := 0,
                updatedAt := 0 }],
    currentChatId := some 1 }

/-- Witness client state: no chats, nothing selected. -/
def stEmpty : ChatState := { chats := [], currentChatId := none }

/-- Witness oversized attachment (one byte beyond the 10 MB ceiling). -/
def bigFile : FileM := { size := 10 * 1024 * 1024 + 1, isImage := true }

/-- Second witness request: audio-intent message with unparseable history. -/
def reqHistBad2 : PostRequest :=
  { hasApiKey := true, message := some (FormVal.str "speak up"),
    history := some (HistVal.strVal (Except.error ())) }

/-- The single chat of `stOneEmpty`. -/
def chatW : Chat :=
  { id := 1, title := "New Chat", messages := [], createdAt := 0,
    updatedAt := 0 }

/-- `stOneEmpty` after sending the France question at time 5. -/
def stOneEmptyAfter : ChatState :=
  { chats := [{ id := 1, title := "What is the capital of France?...",
                messages := [{ id := 7, role := Role.user,
                               content := "What is the capital of France?",
                               media := none }],
                createdAt := 0, updatedAt := 5 }],
    currentChatId := some 1 }

/-! ## Helper lemmas -/

theorem retryAux_ok {α : Type} (op : Nat → Except JsError α) (c f : Nat)
    (a : α) (h : op c = Except.ok a) : retryAux op c f = (Except.ok a, []) := by
  unfold retryAux
  rw [h]

theorem retryable_split {e : JsError} (h : retryable e = true) :
    isApiStatus e 401 = false ∧ isApiStatus e 429 = false ∧
      isApiCode e "content_policy_violation" = false := by
  simp only [retryable, Bool.not_eq_true', Bool.or_eq_false_iff] at h
  exact ⟨h.1.1, h.1.2, h.2⟩

theorem retryAux_step {α : Type} (op : Nat → Except JsError α) (c f : Nat)
    (e : JsError) (h : op c = Except.error e) (hc : c < RETRY_maxRetries)
    (hr : retryable e = true) :
    retryAux op c (f + 1) =
      ((retryAux op (c + 1) f).1,
        min (RETRY_initialDelay * 2 ^ c) RETRY_maxDelay ::
          (retryAux op (c + 1) f).2) := by
  obtain ⟨h1, h2, h3⟩ := retryable_split hr
  have hc2 : ¬ RETRY_maxRetries ≤ c := by omega
  conv_lhs => unfold retryAux
  simp only [h, h1, h2, h3, hc2]
  rfl

theorem retryAux_final {α : Type} (op : Nat → Except JsError α) (c f : Nat)
    (e : JsError) (h : op c = Except.error e) (hc : RETRY_maxRetries ≤ c) :
    retryAux op c f = (Except.error e, []) := by
  conv_lhs => unfold retryAux
  simp only [h]
  rw [if_pos hc]

theorem retryAux_congr {α : Type} (op op2 : Nat → Except JsError α) :
    ∀ (f c : Nat), c + f = RETRY_maxRetries →
      (∀ i, i ≤ RETRY_maxRetries → op i = op2 i) →
      retryAux op c f = retryAux op2 c f := by
  intro f
  induction f with
  | zero =>
    intro c hc hagree
    have h3 := hagree c (by omega)
    unfold retryAux
    rw [h3]
  | succ f ih =>
    intro c hc hagree
    have hopc := hagree c (by omega)
    have hrec := ih (c + 1) (by omega) hagree
    unfold retryAux
    rw [hopc]
    cases hop2 : op2 c with
    | ok a => rfl
    | error e =>
      simp only [hop2]
      split_ifs <;> simp [hrec]

theorem retryAux_stepN {α : Type} (op : Nat → Except JsError α)
    (c f g d : Nat) (e : JsError) (hf : f = g + 1)
    (hd : min (RETRY_initialDelay * 2 ^ c) RETRY_maxDelay = d)
    (h : op c = Except.error e) (hc : c < RETRY_maxRetries)
    (hr : retryable e = true) :
    retryAux op c f = ((retryAux op (c + 1) g).1,
      d :: (retryAux op (c + 1) g).2) := by
  subst hf
  subst hd
  exact retryAux_step op c g e h hc hr

theorem isApiStatus_ne {e : JsError} {m n : Nat} (h : isApiStatus e m = true)
    (hmn : m ≠ n) : isApiStatus e n = false := by
  cases e with
  | api st cd =>
    cases st with
    | none => simp [isApiStatus] at h
    | some s =>
      simp only [isApiStatus, beq_iff_eq] at h
      subst h
      simp only [isApiStatus, beq_eq_false_iff_ne, ne_eq]
      exact hmn
  | err m2 => simp [isApiStatus] at h

/-! ## Claim theorems -/

/-- C1: for every input string, the intent classifier returns `audio` if
any audio-intent pattern matches the lower-cased input, otherwise `image`
if any image-intent pattern matches, otherwise `text`; in particular
audio-pattern matches win over image-pattern matches, and inputs matching
neither group yield `text`. -/
theorem determineResponseType_spec (s : String) :
    ((∃ p ∈ audioPatterns, testPat p (jsToLower s) = true) →
        determineResponseType s = RType.audio) ∧
    ((∀ p ∈ audioPatterns, testPat p (jsToLower s) = false) →
      (∃ p ∈ imagePatterns, testPat p (jsToLower s) = true) →
        determineResponseType s = RType.image) ∧
    ((∀ p ∈ audioPatterns, testPat p (jsToLower s) = false) →
      (∀ p ∈ imagePatterns, testPat p (jsToLower s) = false) →
        determineResponseType s = RType.text) := by
  refine ⟨fun h => ?_, fun h hi => ?_, fun h hi => ?_⟩
  · have ha : audioPatterns.any (fun p => testPat p (jsToLower s)) = true :=
      List.any_eq_true.mpr h
    simp [determineResponseType, ha]
  · have ha : audioPatterns.any (fun p => testPat p (jsToLower s)) = false :=
      List.any_eq_false.mpr (fun x hx => by simp [h x hx])
    have hb : imagePatterns.any (fun p => testPat p (jsToLower s)) = true :=
      List.any_eq_true.mpr hi
    simp [determineResponseType, ha, hb]
  · have ha : audioPatterns.any (fun p => testPat p (jsToLower s)) = false :=
      List.any_eq_false.mpr (fun x hx => by simp [h x hx])
    have hb : imagePatterns.any (fun p => testPat p (jsToLower s)) = false :=
      List.any_eq_false.mpr (fun x hx => by simp [hi x hx])
    simp [determineResponseType, ha, hb]

/-- Witness for C1 at three concrete prompts, one per branch. -/
theorem determineResponseType_spec_witness :
    determineResponseType "speak the weather report" = RType.audio ∧
    determineResponseType "a picture of a cat" = RType.image ∧
    determineResponseType "hello there" = RType.text := by
  refine ⟨(determineResponseType_spec _).1 ?_,
          (determineResponseType_spec _).2.1 ?_ ?_,
          (determineResponseType_spec _).2.2 ?_ ?_⟩ <;> decide

/-- C2: an operation failing with retryable errors on its first `k ≤ 3`
attempts and succeeding on attempt `k + 1` makes the wrapper return that
success after exactly `k` delayed retries, the delay before 0-indexed
retry `n` being `min(1000 * 2^n, 5000)` ms; an operation failing on all 4
attempts surfaces the error of the last attempt, and no 5th attempt is
ever consulted (the outcome only depends on attempts 0–3). -/
theorem retryWithBackoff_spec :
    (∀ (α : Type) (op : Nat → Except JsError α) (k : Nat) (a : α),
      k ≤ 3 →
      (∀ i, i < k → ∃ e, op i = Except.error e ∧ retryable e = true) →
      op k = Except.ok a →
      retryWithBackoff op =
        (Except.ok a, (List.range k).map (fun n => min (1000 * 2 ^ n) 5000))) ∧
    (∀ (α : Type) (op : Nat → Except JsError α) (e : JsError),
      (∀ i, i < 3 → ∃ e2, op i = Except.error e2 ∧ retryable e2 = true) →
      op 3 = Except.error e →
      retryWithBackoff op = (Except.error e, [1000, 2000, 4000])) ∧
    (∀ (α : Type) (op op2 : Nat → Except JsError α),
      (∀ i, i ≤ 3 → op i = op2 i) →
      retryWithBackoff op = retryWithBackoff op2) := by
  refine ⟨?_, ?_, ?_⟩
  · intro α op k a hk hfail hsucc
    have hstart : retryWithBackoff op = retryAux op 0 3 := rfl
    rw [hstart]
    interval_cases k
    · rw [retryAux_ok op 0 3 a hsucc]
      rfl
    · obtain ⟨e0, h0, hr0⟩ := hfail 0 (by omega)
      rw [retryAux_stepN op 0 3 2 1000 e0 (by decide) (by decide) h0
            (by decide) hr0,
          retryAux_ok op 1 2 a hsucc]
      rfl
    · obtain ⟨e0, h0, hr0⟩ := hfail 0 (by omega)
      obtain ⟨e1, h1, hr1⟩ := hfail 1 (by omega)
      rw [retryAux_stepN op 0 3 2 1000 e0 (by decide) (by decide) h0
            (by decide) hr0,
          retryAux_stepN op 1 2 1 2000 e1 (by decide) (by decide) h1
            (by decide) hr1,
          retryAux_ok op 2 1 a hsucc]
      rfl
    · obtain ⟨e0, h0, hr0⟩ := hfail 0 (by omega)
      obtain ⟨e1, h1, hr1⟩ := hfail 1 (by omega)
      obtain ⟨e2, h2, hr2⟩ := hfail 2 (by omega)
      rw [retryAux_stepN op 0 3 2 1000 e0 (by decide) (by decide) h0
            (by decide) hr0,
          retryAux_stepN op 1 2 1 2000 e1 (by decide) (by decide) h1
            (by decide) hr1,
          retryAux_stepN op 2 1 0 4000 e2 (by decide) (by decide) h2
            (by decide) hr2,
          retryAux_ok op 3 0 a hsucc]
      rfl
  · intro α op e hfail hlast
    obtain ⟨e0, h0, hr0⟩ := hfail 0 (by omega)
    obtain ⟨e1, h1, hr1⟩ := hfail 1 (by omega)
    obtain ⟨e2, h2, hr2⟩ := hfail 2 (by omega)
    have hstart : retryWithBackoff op = retryAux op 0 3 := rfl
    rw [hstart,
        retryAux_stepN op 0 3 2 1000 e0 (by decide) (by decide) h0
          (by decide) hr0,
        retryAux_stepN op 1 2 1 2000 e1 (by decide) (by decide) h1
          (by decide) hr1,
        retryAux_stepN op 2 1 0 4000 e2 (by decide) (by decide) h2
          (by decide) hr2,
        retryAux_final op 3 0 e hlast (by decide)]
  · intro α op op2 hagree
    exact retryAux_congr op op2 RETRY_maxRetries 0 (by simp) hagree

/-- Witness for C2: two retryable failures then success yields the value
with delays 1000 ms and 2000 ms. -/
theorem retryWithBackoff_spec_witness :
    retryWithBackoff retryOpW = (Except.ok 42, [1000, 2000]) := by
  have h := retryWithBackoff_spec.1 Nat retryOpW 2 42 (by omega)
    (fun i hi => ⟨JsError.err "boom", by interval_cases i <;> rfl, rfl⟩) rfl
  have hl : (List.range 2).map (fun n => min (1000 * 2 ^ n) 5000) =
      [1000, 2000] := by decide
  rw [hl] at h
  exact h

theorem retryWithBackoff_first_error {α : Type} (op : Nat → Except JsError α)
    (e : JsError) (h : op 0 = Except.error e) :
    retryWithBackoff op =
      (if isApiStatus e 401 then
        (Except.error (JsError.err ERROR_INVALID_API_KEY), [])
      else if isApiStatus e 429 then
        (Except.error (JsError.err ERROR_RATE_LIMIT), [])
      else if isApiCode e "content_policy_violation" then
        (Except.error (JsError.err ERROR_CONTENT_POLICY), [])
      else ((retryAux op 1 2).1, 1000 :: (retryAux op 1 2).2)) := by
  have hstart : retryWithBackoff op = retryAux op 0 3 := rfl
  rw [hstart]
  conv_lhs => unfold retryAux
  simp only [h]
  rw [if_neg (by decide : ¬ RETRY_maxRetries ≤ 0)]
  split_ifs <;> rfl

/-- C3: a wrapped operation whose failure is a provider API error with
HTTP status 401 or 429 or error code `content_policy_violation` is aborted
immediately with zero delayed retries, surfacing the invalid-credentials,
rate-limit or content-policy error respectively (the source checks the two
statuses before the code, so the content-policy mapping applies when the
status is neither 401 nor 429; the two status checks are mutually
exclusive by themselves). -/
theorem retryWithBackoff_nonRetryable :
    ∀ (α : Type) (op : Nat → Except JsError α) (e : JsError),
      op 0 = Except.error e →
      ((retryable e = false →
         ∃ e2, retryWithBackoff op = (Except.error e2, [])) ∧
       (isApiStatus e 401 = true →
         retryWithBackoff op =
           (Except.error (JsError.err ERROR_INVALID_API_KEY), [])) ∧
       (isApiStatus e 429 = true →
         retryWithBackoff op =
           (Except.error (JsError.err ERROR_RATE_LIMIT), [])) ∧
       (isApiStatus e 401 = false → isApiStatus e 429 = false →
         isApiCode e "content_policy_violation" = true →
         retryWithBackoff op =
           (Except.error (JsError.err ERROR_CONTENT_POLICY), []))) := by
  intro α op e h
  have hbase := retryWithBackoff_first_error op e h
  refine ⟨?_, ?_, ?_, ?_⟩
  · intro hnr
    simp only [retryable, Bool.not_eq_false', Bool.or_eq_true_iff] at hnr
    rcases hnr with (h401 | h429) | hpol
    · exact ⟨_, by rw [hbase, if_pos h401]⟩
    · have h401f : isApiStatus e 401 = false := isApiStatus_ne h429 (by omega)
      exact ⟨_, by rw [hbase, if_neg (by simp [h401f]), if_pos h429]⟩
    · by_cases h401 : isApiStatus e 401 = true
      · exact ⟨_, by rw [hbase, if_pos h401]⟩
      · by_cases h429 : isApiStatus e 429 = true
        · exact ⟨_, by rw [hbase, if_neg h401, if_pos h429]⟩
        · exact ⟨_, by rw [hbase, if_neg h401, if_neg h429, if_pos hpol]⟩
  · intro h401
    rw [hbase, if_pos h401]
  · intro h429
    have h401f : isApiStatus e 401 = false := isApiStatus_ne h429 (by omega)
    rw [hbase, if_neg (by simp [h401f]), if_pos h429]
  · intro h401f h429f hpol
    rw [hbase, if_neg (by simp [h401f]), if_neg (by simp [h429f]),
        if_pos hpol]

/-- Witness for C3: an immediate 429 failure is mapped to the rate-limit
error with no retries. -/
theorem retryWithBackoff_nonRetryable_witness :
    retryWithBackoff retryOpW429 =
      (Except.error (JsError.err ERROR_RATE_LIMIT), []) :=
  (retryWithBackoff_nonRetryable Nat retryOpW429
    (JsError.api (some 429) none) rfl).2.2.1 rfl

/-- C9: the 401/429/content-policy mapping only applies while retry budget
remains; a provider error on the final (4th) attempt is rethrown unchanged
(after the three delays), never replaced by the specific mapped errors. -/
theorem retry_finalAttempt_unmapped :
    ∀ (α : Type) (op : Nat → Except JsError α) (e : JsError),
      (∀ i, i < 3 → ∃ e2, op i = Except.error e2 ∧ retryable e2 = true) →
      op 3 = Except.error e →
      retryWithBackoff op = (Except.error e, [1000, 2000, 4000]) ∧
      (retryable e = false →
        ∀ m, (retryWithBackoff op).1 ≠ Except.error (JsError.err m)) := by
  intro α op e hfail hlast
  obtain ⟨e0, h0, hr0⟩ := hfail 0 (by omega)
  obtain ⟨e1, h1, hr1⟩ := hfail 1 (by omega)
  obtain ⟨e2, h2, hr2⟩ := hfail 2 (by omega)
  have hstart : retryWithBackoff op = retryAux op 0 3 := rfl
  have hmain : retryWithBackoff op = (Except.error e, [1000, 2000, 4000]) := by
    rw [hstart,
        retryAux_stepN op 0 3 2 1000 e0 (by decide) (by decide) h0
          (by decide) hr0,
        retryAux_stepN op 1 2 1 2000 e1 (by decide) (by decide) h1
          (by decide) hr1,
        retryAux_stepN op 2 1 0 4000 e2 (by decide) (by decide) h2
          (by decide) hr2,
        retryAux_final op 3 0 e hlast (by decide)]
  refine ⟨hmain, ?_⟩
  intro hnr m hEq
  rw [hmain] at hEq
  simp only at hEq
  cases hEq
  simp [retryable, isApiStatus, isApiCode] at hnr

/-- Witness for C9: three retryable failures then a 401 on the final
attempt surface the raw 401 API error, not the mapped message. -/
theorem retry_finalAttempt_unmapped_witness :
    retryWithBackoff retryOpW401 =
      (Except.error (JsError.api (some 401) none), [1000, 2000, 4000]) :=
  (retry_finalAttempt_unmapped Nat retryOpW401 (JsError.api (some 401) none)
    (fun i hi => ⟨JsError.err "boom", by interval_cases i <;> rfl, rfl⟩)
    rfl).1

/-- C4 counterexample: a request with a valid message and an unparseable
`history` payload is not rejected — the handler proceeds into the
generation dispatch (with an empty history plus the current turn). -/
theorem history_unparseable_not_rejected_cex :
    postDispatch reqHistBad =
      PostOutcome.dispatch RType.text "hello"
        [{ role := Role.user, content := "hello" }] := by
  decide

/-- C4 (amended): an unparseable `history` payload does not cause a
rejection; the `JSON.parse` failure is caught and logged, the history is
treated as empty, and for a valid message the handler proceeds to the
generation dispatch with just the current user turn. -/
theorem history_unparseable_proceeds :
    ∀ (req : PostRequest) (m : String),
      req.hasApiKey = true →
      req.message = some (FormVal.str m) →
      jsTrim m ≠ "" →
      req.history = some (HistVal.strVal (Except.error ())) →
      postDispatch req =
        PostOutcome.dispatch (determineResponseType (jsTrim m)) (jsTrim m)
          [{ role := Role.user, content := jsTrim m }] := by
  intro req m hkey hmsg htrim hhist
  unfold postDispatch
  rw [hkey, hmsg, hhist]
  simp only [Bool.true_eq_false, if_false, if_neg htrim]
  rfl

/-- Witness for C4 at a second concrete request (audio-intent message,
unparseable history). -/
theorem history_unparseable_proceeds_witness :
    postDispatch reqHistBad2 =
      PostOutcome.dispatch RType.audio "speak up"
        [{ role := Role.user, content := "speak up" }] := by
  have h := history_unparseable_proceeds reqHistBad2 "speak up" rfl rfl
    (by decide) rfl
  have ht : jsTrim "speak up" = "speak up" := by decide
  rw [ht] at h
  have hd : determineResponseType "speak up" = RType.audio := by decide
  rw [hd] at h
  exact h

/-- C8: a request whose `message` form field is missing, a `File`, or a
string that is empty after trimming is answered with HTTP 400 and the
invalid-request error body, and never reaches a generation branch
(given the API key is configured — a missing key is reported first
with status 500). -/
theorem post_invalidMessage_rejects :
    ∀ (req : PostRequest),
      req.hasApiKey = true →
      (req.message = none ∨ req.message = some FormVal.blob ∨
        (∃ s, req.message = some (FormVal.str s) ∧ jsTrim s = "")) →
      postDispatch req = PostOutcome.reject 400 ERROR_INVALID_REQUEST := by
  intro req hkey hmsg
  unfold postDispatch
  rw [hkey]
  rcases hmsg with hnone | hblob | ⟨s, hstr, hs⟩
  · rw [hnone]
    rfl
  · rw [hblob]
    rfl
  · rw [hstr]
    simp [hs]

/-- Witness for C8: a whitespace-only message yields the 400 rejection. -/
theorem post_invalidMessage_rejects_witness :
    postDispatch reqBlankMsg = PostOutcome.reject 400 ERROR_INVALID_REQUEST :=
  post_invalidMessage_rejects reqBlankMsg rfl
    (Or.inr (Or.inr ⟨"   ", rfl, by decide⟩))

theorem mem_sortByUpdatedDesc {c : Chat} {l : List Chat} :
    c ∈ sortByUpdatedDesc l ↔ c ∈ l :=
  (List.perm_insertionSort byUpdatedDesc l).mem_iff

theorem qMarkScan_spec :
    ∀ (cs : List Char) (k : Nat), qMarkScan cs = some k →
      cs.get? k = some '?' ∧
        ∀ j, j < k →
          ∃ c, cs.get? j = some c ∧ isDotChar c = true ∧ c ≠ '?' := by
  intro cs
  induction cs with
  | nil => intro k h; simp [qMarkScan] at h
  | cons c cs ih =>
    intro k h
    by_cases hc : c = '?'
    · rw [qMarkScan, if_pos hc] at h
      have hk : k = 0 := (Option.some.inj h).symm
      subst hk
      exact ⟨by simp [hc], fun j hj => absurd hj (by omega)⟩
    · by_cases hd : isDotChar c = true
      · rw [qMarkScan, if_neg hc, if_pos hd] at h
        obtain ⟨k2, hk2, hk⟩ := Option.map_eq_some'.mp h
        subst hk
        obtain ⟨hget, hpre⟩ := ih k2 hk2
        refine ⟨by simpa using hget, ?_⟩
        intro j hj
        cases j with
        | zero => exact ⟨c, rfl, hd, hc⟩
        | succ j2 =>
          obtain ⟨c2, hc2, hd2, hne2⟩ := hpre j2 (by omega)
          exact ⟨c2, by simpa using hc2, hd2, hne2⟩
      · rw [qMarkScan, if_neg hc, if_neg hd] at h
        simp at h

theorem dotThenQMark_spec :
    ∀ (rest : List Char) (k : Nat), dotThenQMark rest = some k →
      1 ≤ k ∧ rest.get? k = some '?' ∧
        (∀ j, j < k → ∃ c, rest.get? j = some c ∧ isDotChar c = true) ∧
        (∀ j, 1 ≤ j → j < k → rest.get? j ≠ some '?') := by
  intro rest k h
  cases rest with
  | nil => simp [dotThenQMark] at h
  | cons c cs =>
    by_cases hd : isDotChar c = true
    · rw [dotThenQMark, if_pos hd] at h
      obtain ⟨k2, hk2, hk⟩ := Option.map_eq_some'.mp h
      subst hk
      obtain ⟨hget, hpre⟩ := qMarkScan_spec cs k2 hk2
      refine ⟨by omega, by simpa using hget, ?_, ?_⟩
      · intro j hj
        cases j with
        | zero => exact ⟨c, rfl, hd⟩
        | succ j2 =>
          obtain ⟨c2, hc2, hd2, _⟩ := hpre j2 (by omega)
          exact ⟨c2, by simpa using hc2, hd2⟩
      · intro j hj1 hjk
        cases j with
        | zero => omega
        | succ j2 =>
          obtain ⟨c2, hc2, _, hne2⟩ := hpre j2 (by omega)
          intro hbad
          rw [List.get?_cons_succ, hc2] at hbad
          exact hne2 (Option.some.inj hbad)
    · rw [dotThenQMark, if_neg hd] at h
      simp at h

theorem lazyQMarkAfter_spec :
    ∀ (cs : List Char) (n i : Nat), lazyQMarkAfter cs n = some i →
      n + 1 ≤ i ∧ cs.get? i = some '?' ∧
        (∀ j, n ≤ j → j < i →
          ∃ c, cs.get? j = some c ∧ isDotChar c = true) ∧
        (∀ j, n + 1 ≤ j → j < i → cs.get? j ≠ some '?') := by
  intro cs n i h
  unfold lazyQMarkAfter at h
  obtain ⟨k, hk, hi⟩ := Option.map_eq_some'.mp h
  subst hi
  obtain ⟨hk1, hget, hdots, hmin⟩ := dotThenQMark_spec (cs.drop n) k hk
  rw [List.get?_drop] at hget
  refine ⟨by omega, by rw [show k + n = n + k from by omega]; exact hget,
    ?_, ?_⟩
  · intro j hnj hji
    obtain ⟨c, hc, hd⟩ := hdots (j - n) (by omega)
    rw [List.get?_drop, show n + (j - n) = j from by omega] at hc
    exact ⟨c, hc, hd⟩
  · intro j hnj hji
    have := hmin (j - n) (by omega) (by omega)
    rw [List.get?_drop, show n + (j - n) = j from by omega] at this
    exact this

theorem tryQuestionWords_spec :
    ∀ (ws : List String) (cs : List Char) (q : List Char),
      tryQuestionWords ws cs = some q →
      ∃ w ∈ ws, ciPrefix w.data cs = true ∧
        ∃ i, w.length + 1 ≤ i ∧ cs.get? i = some '?' ∧
          (∀ j, w.length ≤ j → j < i →
            ∃ c, cs.get? j = some c ∧ isDotChar c = true) ∧
          (∀ j, w.length + 1 ≤ j → j < i → cs.get? j ≠ some '?') ∧
          q = cs.take (i + 1) := by
  intro ws
  induction ws with
  | nil => intro cs q h; simp [tryQuestionWords] at h
  | cons w ws ih =>
    intro cs q h
    simp only [tryQuestionWords] at h
    by_cases hp : ciPrefix w.data cs = true
    · rw [if_pos hp] at h
      cases hq : lazyQMarkAfter cs w.length with
      | none =>
        rw [hq] at h
        obtain ⟨w2, hw2, rest⟩ := ih cs q h
        exact ⟨w2, List.mem_cons_of_mem _ hw2, rest⟩
      | some i =>
        rw [hq] at h
        obtain ⟨hs, hget, hdots, hmin⟩ := lazyQMarkAfter_spec cs w.length i hq
        have hqeq := Option.some.inj h
        exact ⟨w, List.mem_cons_self _ _, hp, i, hs, hget, hdots, hmin,
          hqeq.symm⟩
    · rw [if_neg hp] at h
      obtain ⟨w2, hw2, rest⟩ := ih cs q h
      exact ⟨w2, List.mem_cons_of_mem _ hw2, rest⟩

theorem appendUserMessage_title_mem {chats : List Chat} {chatId : Nat}
    {newMessage : CMsg} {message : String} {now : Nat} {c : Chat}
    (hc : c ∈ appendUserMessage chats chatId newMessage message now)
    (hid : c.id = chatId) :
    ∃ a ∈ chats, a.id = chatId ∧
      c.title =
        (if a.messages.length == 0 then generateChatTitle message
         else a.title) := by
  unfold appendUserMessage at hc
  have hc2 := mem_sortByUpdatedDesc.mp hc
  obtain ⟨a, ha, hfa⟩ := List.mem_map.mp hc2
  by_cases hb : (a.id == chatId) = true
  · refine ⟨a, ha, by simpa using hb, ?_⟩
    rw [← hfa]
    simp only [if_pos hb]
  · exfalso
    rw [← hfa] at hid
    simp only [if_neg hb] at hid
    exact absurd hid (by simpa using hb)

theorem sendMessage_selected_eval (st : ChatState) (message : String)
    (cid : Nat) (chat : Chat) (file : Option FileM)
    (now newChatId msgId : Nat) (objUrl : String)
    (hcur : st.currentChatId = some cid)
    (hfind : st.chats.find? (fun c => c.id == cid) = some chat)
    (hne : (jsTrim message == "" && file.isNone) = false)
    (hfile : fileTooLarge file = false) :
    sendMessage st message file now newChatId msgId objUrl =
      SendOutcome.sent
        { st with
          chats := appendUserMessage st.chats cid
            (mkUserMessage msgId message file objUrl) message now }
        cid
        (chat.messages.map (fun m =>
          ({ role := m.role, content := m.content } : SMsg)))
        message := by
  unfold sendMessage
  simp only [hne, hcur, hfind, hfile, Bool.false_eq_true, if_false]

/-- C5 (code bug): sending with no chat selected creates a new chat and
marks it current, but the subsequent lookup runs against the captured
stale `chats` array which cannot contain the fresh id, so `sendMessage`
returns early: the user message is never appended anywhere and no network
request is issued, contradicting the optimistic-append contract for the
created-chat case. -/
theorem sendMessage_staleChat_dropsMessage :
    sendMessage stEmpty "hello" none 10 1 2 "u" =
      SendOutcome.abortedStaleChat
        { chats := [mkNewChat 10 1], currentChatId := some 1 } := by
  decide

/-- C6: a send into a chat with zero prior messages sets the title from
that first message via `generateChatTitle` (raw text under 30 characters;
the question-prefix up to the first `?` reachable from the matched
question word through `.+?` — so with no line terminator in between —
truncated to 30 characters plus an ellipsis; otherwise the first four
words plus an ellipsis), and sends into a chat that already has messages
leave the title unchanged. -/
theorem chatTitle_firstMessage_spec :
    (∀ (st : ChatState) (message : String) (cid : Nat) (chat : Chat)
        (file : Option FileM) (now newChatId msgId : Nat) (objUrl : String),
      st.currentChatId = some cid →
      st.chats.find? (fun c => c.id == cid) = some chat →
      (∀ c ∈ st.chats, c.id = cid → c = chat) →
      (jsTrim message == "" && file.isNone) = false →
      fileTooLarge file = false →
      ∃ st2 hist,
        sendMessage st message file now newChatId msgId objUrl =
          SendOutcome.sent st2 cid hist message ∧
        (chat.messages = [] →
          ∀ c ∈ st2.chats, c.id = cid →
            c.title = generateChatTitle message) ∧
        (chat.messages ≠ [] →
          ∀ c ∈ st2.chats, c.id = cid → c.title = chat.title)) ∧
    (∀ m : String, m.length < 30 → generateChatTitle m = m) ∧
    (∀ (m q : String), ¬ m.length < 30 → matchQuestion m = some q →
      generateChatTitle m = String.mk (q.data.take 30) ++ "..." ∧
      ∃ i, m.data.get? i = some '?' ∧ q.data = m.data.take (i + 1) ∧
        ∃ w ∈ questionWords, ciPrefix w.data m.data = true ∧
          w.length + 1 ≤ i ∧
          (∀ j, w.length ≤ j → j < i →
            ∃ c, m.data.get? j = some c ∧ isDotChar c = true) ∧
          ∀ j, w.length + 1 ≤ j → j < i → m.data.get? j ≠ some '?') ∧
    (∀ m : String, ¬ m.length < 30 → matchQuestion m = none →
      generateChatTitle m = joinSpace ((jsSplitSpace m).take 4) ++ "...") := by
  refine ⟨?_, ?_, ?_, ?_⟩
  · intro st message cid chat file now newChatId msgId objUrl hcur hfind
      huniq hne hfile
    refine ⟨_, _,
      sendMessage_selected_eval st message cid chat file now newChatId msgId
        objUrl hcur hfind hne hfile, ?_, ?_⟩
    · intro hempty c hc hid
      have hall : ∀ a ∈ st.chats, a.id = cid → a.messages = [] := by
        intro a ha haid
        rw [huniq a ha haid]
        exact hempty
      obtain ⟨a, ha, haid, htitle⟩ := appendUserMessage_title_mem hc hid
      rw [htitle, if_pos (by simp [hall a ha haid])]
    · intro hnonempty c hc hid
      obtain ⟨a, ha, haid, htitle⟩ := appendUserMessage_title_mem hc hid
      have haq := huniq a ha haid
      subst haq
      rw [htitle,
        if_neg (by simpa [List.length_eq_zero] using hnonempty)]
  · intro m h
    simp [generateChatTitle, h]
  · intro m q hlen hq
    have hq2 := hq
    unfold matchQuestion at hq2
    obtain ⟨ql, hql, hqq⟩ := Option.map_eq_some'.mp hq2
    subst hqq
    constructor
    · simp [generateChatTitle, hlen, hq]
    · obtain ⟨w, hw, hcip, i, hi1, hget, hdots, hmin, htake⟩ :=
        tryQuestionWords_spec questionWords m.data ql hql
      exact ⟨i, hget, by simpa using htake, w, hw, hcip, hi1, hdots, hmin⟩
  · intro m hlen hnone
    simp [generateChatTitle, hlen, hnone]

/-- Witness for C6: sending the France question into a fresh empty chat
retitles it to the question plus ellipsis. -/
theorem chatTitle_firstMessage_witness :
    sendMessage stOneEmpty "What is the capital of France?" none 5 99 7 "u" =
      SendOutcome.sent stOneEmptyAfter 1 [] "What is the capital of France?" ∧
    ∀ c ∈ stOneEmptyAfter.chats, c.id = 1 →
      c.title = "What is the capital of France?..." := by
  obtain ⟨st2, hist, heq, hemp, _⟩ :=
    chatTitle_firstMessage_spec.1 stOneEmpty "What is the capital of France?"
      1 chatW none 5 99 7 "u" rfl rfl (by decide) (by decide) rfl
  have heval : sendMessage stOneEmpty "What is the capital of France?" none
      5 99 7 "u" =
      SendOutcome.sent stOneEmptyAfter 1 [] "What is the capital of France?" := by
    decide
  refine ⟨heval, ?_⟩
  rw [heval] at heq
  injection heq with h1 h2 h3 h4
  subst h1
  intro c hc hid
  rw [hemp rfl c hc hid]
  decide

/-- C7: each session mutation leaves the chat list sorted by last-update
time, most recent first — chat creation prepends a chat stamped with the
current (maximal) time, deletion filters, and both message appends re-sort
explicitly. -/
theorem mutations_preserve_sorted :
    (∀ (st : ChatState) (now id : Nat),
      chatsSortedDesc st.chats → (∀ c ∈ st.chats, c.updatedAt ≤ now) →
      chatsSortedDesc (createNewChat st now id).chats) ∧
    (∀ (st : ChatState) (chatId : Nat),
      chatsSortedDesc st.chats →
      chatsSortedDesc (removeChat st chatId).chats) ∧
    (∀ (st : ChatState) (message : String) (file : Option FileM)
        (now newChatId msgId : Nat) (objUrl : String) (st2 : ChatState)
        (chatId : Nat) (hist : List SMsg) (ms : String),
      sendMessage st message file now newChatId msgId objUrl =
        SendOutcome.sent st2 chatId hist ms →
      chatsSortedDesc st2.chats) ∧
    (∀ (st : ChatState) (chatId : Nat) (data : ApiData) (now msgId : Nat),
      chatsSortedDesc (applyAssistantResponse st chatId data now msgId).chats) := by
  refine ⟨?_, ?_, ?_, ?_⟩
  · intro st now id hsorted hbound
    exact List.Pairwise.cons (fun b hb => hbound b hb) hsorted
  · intro st chatId hsorted
    exact hsorted.filter _
  · intro st message file now newChatId msgId objUrl st2 chatId hist ms h
    unfold sendMessage at h
    by_cases hne : (jsTrim message == "" && file.isNone) = true
    · rw [if_pos hne] at h
      simp at h
    · rw [if_neg hne] at h
      cases hcur : st.currentChatId with
      | some cid =>
        simp only [hcur] at h
        cases hfind : st.chats.find? (fun c => c.id == cid) with
        | none =>
          simp only [hfind] at h
          simp at h
        | some chat =>
          simp only [hfind] at h
          by_cases hfl : fileTooLarge file = true
          · simp only [hfl, if_true] at h
            simp at h
          · simp only [Bool.not_eq_true] at hfl
            simp only [hfl, Bool.false_eq_true, if_false] at h
            injection h with h1 h2 h3 h4
            subst h1
            exact List.sorted_insertionSort byUpdatedDesc _
      | none =>
        simp only [hcur] at h
        cases hfind : st.chats.find? (fun c => c.id == newChatId) with
        | none =>
          simp only [hfind] at h
          simp at h
        | some chat =>
          simp only [hfind] at h
          by_cases hfl : fileTooLarge file = true
          · simp only [hfl, if_true] at h
            simp at h
          · simp only [Bool.not_eq_true] at hfl
            simp only [hfl, Bool.false_eq_true, if_false] at h
            injection h with h1 h2 h3 h4
            subst h1
            exact List.sorted_insertionSort byUpdatedDesc _
  · intro st chatId data now msgId
    exact List.sorted_insertionSort byUpdatedDesc _

/-- Witness for C7: creating a chat at time 5 over the singleton state
keeps the list sorted. -/
theorem mutations_preserve_sorted_witness :
    chatsSortedDesc (createNewChat stOneEmpty 5 2).chats :=
  mutations_preserve_sorted.1 stOneEmpty 5 2
    (by simp [chatsSortedDesc, stOneEmpty]) (by decide)

/-- C10: a send with no chat selected and an oversized attachment is
dropped (no optimistic append, no network request — the stale-closure
early return fires before the size check even runs), yet the freshly
created empty chat is already in the store and selected: the rejected
send still mutates session state. -/
theorem sendMessage_oversizeFile_noChat :
    ∀ (st : ChatState) (message : String) (f : FileM)
        (now newChatId msgId : Nat) (objUrl : String),
      st.currentChatId = none →
      st.chats.find? (fun c => c.id == newChatId) = none →
      10 * 1024 * 1024 < f.size →
      sendMessage st message (some f) now newChatId msgId objUrl =
        SendOutcome.abortedStaleChat
          { chats := mkNewChat now newChatId :: st.chats,
            currentChatId := some newChatId } := by
  intro st message f now newChatId msgId objUrl hcur hfresh hsize
  unfold sendMessage
  simp only [hcur, hfresh, Option.isNone_some, Bool.and_false,
    Bool.false_eq_true, if_false]
  rfl

/-- Witness for C10 at the empty state with an 10 MB + 1 byte file. -/
theorem sendMessage_oversizeFile_noChat_witness :
    sendMessage stEmpty "hi" (some bigFile) 10 1 2 "u" =
      SendOutcome.abortedStaleChat
        { chats := [mkNewChat 10 1], currentChatId := some 1 } :=
  sendMessage_oversizeFile_noChat stEmpty "hi" bigFile 10 1 2 "u" rfl rfl
    (by decide)
